import Mathlib

/-!
Verification development for the cortex prescription-analysis core.

The definitions below are a shallow embedding of the two core source files:
  * src/packages/coretex-engine/src/analyzePrescription.ts  (local analyzer)
  * src/coretex-api/src/conflict_client.ts                  (external-check client)

JavaScript strings are modelled as Lean `String`, JSON-decoded values as the
`Json` inductive below, JavaScript numbers appearing in external payloads as
`ℚ` (JSON cannot encode NaN or infinities), and `undefined` as `Option.none`.
Primitive JavaScript string operations (split, includes, trim, toLowerCase,
code-unit comparison) are embedded as structurally recursive functions over
character lists so every definition evaluates by kernel reduction.
-/

/-! ## JavaScript string and number primitives -/

/-- JavaScript `s.split(sep)` for a single-character separator, on char lists. -/
def splitOnChar (sep : Char) : List Char → List (List Char)
  | [] => [[]]
  | c :: cs =>
    if c = sep then [] :: splitOnChar sep cs
    else
      match splitOnChar sep cs with
      | [] => [[c]]
      | r :: rs => (c :: r) :: rs

/-- Value of a digit string under JavaScript `Number(...)`; faithful for
all-digit strings, which is the only shape the analyzer produces ("HH", "MM"). -/
def jsDigitsToNat (cs : List Char) : Nat :=
  cs.foldl (fun n c => n * 10 + (c.toNat - 48)) 0

/-- JavaScript `haystack.includes(needle)` on char lists. -/
def listContains (haystack needle : List Char) : Bool :=
  match haystack with
  | [] => needle.isEmpty
  | _ :: tail => needle.isPrefixOf haystack || listContains tail needle

/-- JavaScript `haystack.includes(needle)`. -/
def containsSubstr (haystack needle : String) : Bool :=
  listContains haystack.data needle.data

/-- JavaScript `s.trim()` (whitespace stripped from both ends), on char lists. -/
def trimChars (cs : List Char) : List Char :=
  (((cs.dropWhile Char.isWhitespace).reverse.dropWhile Char.isWhitespace).reverse)

/-- JavaScript `s.trim()`. -/
def jsTrim (s : String) : String := String.mk (trimChars s.data)

/-- JavaScript `s.toLowerCase()` (per-character lowering; faithful on ASCII,
which is all the rule table and heuristics use). -/
def jsToLower (s : String) : String := String.mk (s.data.map Char.toLower)

/-- Lexicographic code-unit comparison, as used by JavaScript `<` on strings
and by the default `Array.prototype.sort()` comparator. -/
def lexLt : List Char → List Char → Bool
  | [], [] => false
  | [], _ :: _ => true
  | _ :: _, [] => false
  | a :: as, b :: bs =>
    if a.toNat < b.toNat then true
    else if b.toNat < a.toNat then false
    else lexLt as bs

/-- JavaScript string comparison `a < b`. -/
def jsStringLt (a b : String) : Bool := lexLt a.data b.data

/-- Two-digit zero-padded rendering of `n`, as JavaScript
`n.toString().padStart(2, "0")` produces for `n < 100`; the callers only pass
hours (≤ 23) and minutes (≤ 59). -/
def twoDigits (n : Nat) : String :=
  String.mk [Nat.digitChar (n / 10), Nat.digitChar (n % 10)]

/-- JavaScript `Math.round` on exact rationals: round half toward +∞. -/
def jsMathRound (q : ℚ) : Int := ⌊q + 1 / 2⌋

/-- Truthiness of an optional boolean, as JavaScript applies it to a
`boolean | undefined` value: `undefined` is falsy. -/
def jsTruthyOptBool : Option Bool → Bool
  | some b => b
  | none => false

/-- Truthiness of an optional number, as JavaScript applies it to a
`number | undefined` value: `undefined` and `0` are falsy. -/
def jsTruthyOptNat : Option Nat → Bool
  | some n => !(n == 0)
  | none => false

/-- JavaScript `a || b` on strings: an empty string is falsy. -/
def jsOrString (a b : String) : String := if a = "" then b else a

/-! ## Shared data model (src/packages/shared-types) -/

/-- InteractionSeverity from shared-types. -/
inductive InteractionSeverity where
  | minor
  | moderate
  | major
  | contraindicated
deriving DecidableEq, Repr

/-- RecommendationType from shared-types. -/
inductive RecommendationType where
  | keep_and_separate
  | replace_medication
  | avoid_combination
deriving DecidableEq, Repr

/-- PrescribedMedication from shared-types.  The TypeScript type restricts
`frequencyPerDay` to the literal union 1 | 2 | 3 | 4. -/
structure PrescribedMedication where
  name : String
  dose : String
  frequencyPerDay : Nat
deriving DecidableEq, Repr

/-- PatientProfile from shared-types; opaque to the analyzer. -/
structure PatientProfile where
  id : String
  name : String
  age : Nat
  allergies : List String
  conditions : List String
  renalImpairment : Option Bool := none
  hepaticImpairment : Option Bool := none
deriving DecidableEq, Repr

/-- PrescriptionAnalysisRequest from shared-types. -/
structure PrescriptionAnalysisRequest where
  diagnosis : String
  patient : PatientProfile
  medications : List PrescribedMedication
deriving DecidableEq, Repr

/-- InteractionFinding from shared-types.  `medications` is the ordered pair
of names as recorded at detection time; `alternatives` is the optional record
mapping a medication name to substitutes, embedded as an association list. -/
structure InteractionFinding where
  medications : String × String
  severity : InteractionSeverity
  reason : String
  canSeparateBySchedule : Bool
  minHoursApart : Option Nat := none
  alternatives : Option (List (String × List String)) := none
deriving DecidableEq, Repr

/-- ScheduleSlot from shared-types. -/
structure ScheduleSlot where
  medication : String
  times : List String
  note : Option String := none
deriving DecidableEq, Repr

/-- SafetyRecommendation from shared-types. -/
structure SafetyRecommendation where
  type : RecommendationType
  title : String
  details : String
deriving DecidableEq, Repr

/-- PrescriptionAnalysisResult from shared-types. -/
structure PrescriptionAnalysisResult where
  isSafe : Bool
  interactions : List InteractionFinding
  schedule : List ScheduleSlot
  recommendations : List SafetyRecommendation
deriving DecidableEq, Repr

/-! ## Engine (src/packages/coretex-engine/src/analyzePrescription.ts) -/

/-- InteractionRule (analyzePrescription.ts lines 10–16). -/
structure InteractionRule where
  severity : InteractionSeverity
  reason : String
  canSeparateBySchedule : Bool
  minHoursApart : Option Nat := none
  alternatives : Option (List (String × List String)) := none
deriving DecidableEq, Repr

/-- The static rule table `rules` (analyzePrescription.ts lines 18–55),
keyed by canonical pair key. -/
def rules (key : String) : Option InteractionRule :=
  if key = "aspirin::warfarin" then
    some { severity := .major
         , reason := "Increased bleeding risk from additive anticoagulant effects."
         , canSeparateBySchedule := false
         , alternatives := some [("aspirin", ["clopidogrel"]), ("warfarin", ["apixaban"])] }
  else if key = "clarithromycin::simvastatin" then
    some { severity := .contraindicated
         , reason := "Strong CYP3A4 inhibition may increase simvastatin toxicity."
         , canSeparateBySchedule := false
         , alternatives := some [("clarithromycin", ["azithromycin"]),
                                 ("simvastatin", ["pravastatin", "rosuvastatin"])] }
  else if key = "calcium::levothyroxine" then
    some { severity := .moderate
         , reason := "Calcium reduces levothyroxine absorption."
         , canSeparateBySchedule := true
         , minHoursApart := some 4
         , alternatives := some [("calcium", ["vitamin D only (if clinically acceptable)"])] }
  else if key = "ciprofloxacin::iron" then
    some { severity := .moderate
         , reason := "Iron chelates ciprofloxacin and lowers antibiotic absorption."
         , canSeparateBySchedule := true
         , minHoursApart := some 2
         , alternatives := some [("ciprofloxacin", ["doxycycline (if appropriate)"])] }
  else none

/-- `baseTimes` (analyzePrescription.ts lines 57–62).  The TypeScript record is
total on the type 1 | 2 | 3 | 4 of `frequencyPerDay`; other inputs are
unreachable. -/
def baseTimes (frequencyPerDay : Nat) : List String :=
  match frequencyPerDay with
  | 1 => ["08:00"]
  | 2 => ["08:00", "20:00"]
  | 3 => ["08:00", "14:00", "20:00"]
  | 4 => ["06:00", "12:00", "18:00", "22:00"]
  | _ => []

/-- `toPairKey` (lines 64–66): lowercase both names, sort with the default
array sort (lexicographic, stable), join with "::". -/
def toPairKey (a b : String) : String :=
  let x := jsToLower a
  let y := jsToLower b
  if jsStringLt y x then y ++ ("::") ++ x else x ++ ("::") ++ y

/-- `parseTime` (lines 68–71): split on ":" and read hours/minutes; outside
well-formed "HH:MM" strings the TypeScript original yields NaN, which never
occurs in the analyzer (all times come from `baseTimes` or `formatTime`). -/
def parseTime (time : String) : Nat :=
  match splitOnChar ':' time.data with
  | h :: m :: _ => jsDigitsToNat h * 60 + jsDigitsToNat m
  | _ => 0

/-- `formatTime` (lines 73–78). -/
def formatTime (totalMinutes : Int) : String :=
  let normalized := ((totalMinutes % 1440) + 1440) % 1440
  let h := (normalized / 60).toNat
  let m := (normalized % 60).toNat
  twoDigits h ++ (":") ++ twoDigits m

/-- `timeDiffHours` (lines 80–84): circular distance in (possibly fractional)
hours. -/
def timeDiffHours (a b : String) : ℚ :=
  let diff : Int := |(parseTime a : Int) - (parseTime b : Int)|
  let wrapped : Int := min diff (1440 - diff)
  (wrapped : ℚ) / 60

/-- `allPairsRespectGap` (lines 86–95). -/
def allPairsRespectGap (timesA timesB : List String) (minHours : Nat) : Bool :=
  timesA.all fun timeA =>
    timesB.all fun timeB =>
      !(decide (timeDiffHours timeA timeB < (minHours : ℚ)))

/-- `shiftTimes` (lines 97–100); the optimizer only passes integer hour
shifts, for which `Math.round(hours * 60) = hours * 60`. -/
def shiftTimes (times : List String) (hours : Nat) : List String :=
  times.map fun time => formatTime ((parseTime time : Int) + (hours : Int) * 60)

/-- `buildInitialSchedule` (lines 102–107). -/
def buildInitialSchedule (medications : List PrescribedMedication) : List ScheduleSlot :=
  medications.map fun med => { medication := med.name, times := baseTimes med.frequencyPerDay }

/-- All index pairs i < j of a list in the nested-loop order used by
`detectInteractions` (lines 112–113) and `collectExternalInteractions`
(conflict_client.ts lines 361–362). -/
def pairsInOrder {α : Type} : List α → List (α × α)
  | [] => []
  | x :: xs => (xs.map fun y => (x, y)) ++ pairsInOrder xs

/-- The finding pushed for a pair with a matching rule
(analyzePrescription.ts lines 121–128). -/
def mkLocalFinding (a b : PrescribedMedication) (rule : InteractionRule) : InteractionFinding :=
  { medications := (a.name, b.name)
  , severity := rule.severity
  , reason := rule.reason
  , canSeparateBySchedule := rule.canSeparateBySchedule
  , minHoursApart := rule.minHoursApart
  , alternatives := rule.alternatives }

/-- `detectInteractions` (lines 109–133). -/
def detectInteractions (medications : List PrescribedMedication) : List InteractionFinding :=
  (pairsInOrder medications).filterMap fun ab =>
    match rules (toPairKey ab.1.name ab.2.name) with
    | none => none
    | some rule => some (mkLocalFinding ab.1 ab.2 rule)

/-- The note written when the existing gap already suffices (line 153). -/
def keepApartNote (minHours : Nat) (medName : String) : String :=
  "Keep at least " ++ toString minHours ++ " hours apart from " ++ medName ++ "."

/-- The note written after a successful shift (line 162). -/
def shiftedNote (minHours : Nat) (medName : String) : String :=
  "Shifted to maintain " ++ toString minHours ++ "-hour separation from " ++ medName ++ "."

/-- The note written when no shift in range works (line 169). -/
def unableNote (medName : String) : String :=
  "Unable to safely separate from " ++ medName ++ " by schedule alone."

/-- The shift-search loop of `optimizeSchedule` (lines 157–166): try integer
shifts `shift, shift+1, …, 12`, returning the first shifted candidate that
respects the gap. -/
def tryShifts (timesA timesB : List String) (minHours shift : Nat) : Option (List String) :=
  if shift ≤ 12 then
    let candidate := shiftTimes timesB shift
    if allPairsRespectGap timesA candidate minHours then some candidate
    else tryShifts timesA timesB minHours (shift + 1)
  else none
termination_by 13 - shift

/-- In-place mutation of the first element satisfying `p`, as the TypeScript
`updated.find(...)` followed by field assignment performs. -/
def updateFirst {α : Type} (p : α → Bool) (f : α → α) : List α → List α
  | [] => []
  | x :: xs => if p x then f x :: xs else x :: updateFirst p f xs

/-- One iteration of the `optimizeSchedule` loop body (lines 141–171) for a
single finding.  `!finding.minHoursApart` in the guard treats both `undefined`
and `0` as absent. -/
def processFinding (updated : List ScheduleSlot) (finding : InteractionFinding) :
    List ScheduleSlot :=
  match finding.minHoursApart with
  | none => updated
  | some minHours =>
    if !finding.canSeparateBySchedule || minHours == 0 then updated
    else
      match updated.find? (fun s => s.medication == finding.medications.1),
            updated.find? (fun s => s.medication == finding.medications.2) with
      | some medA, some medB =>
        if allPairsRespectGap medA.times medB.times minHours then
          updateFirst (fun s => s.medication == finding.medications.2)
            (fun s => { s with note := some (keepApartNote minHours medA.medication) }) updated
        else
          match tryShifts medA.times medB.times minHours minHours with
          | some candidate =>
            updateFirst (fun s => s.medication == finding.medications.2)
              (fun s => { s with times := candidate
                               , note := some (shiftedNote minHours medA.medication) }) updated
          | none =>
            updateFirst (fun s => s.medication == finding.medications.2)
              (fun s => { s with note := some (unableNote medA.medication) }) updated
      | _, _ => updated

/-- `optimizeSchedule` (lines 135–174): process findings in detection order,
each operating on the schedule as left by the previous one. -/
def optimizeSchedule (schedule : List ScheduleSlot) (interactions : List InteractionFinding) :
    List ScheduleSlot :=
  interactions.foldl processFinding schedule

/-- `generateRecommendations` (lines 176–216). -/
def generateRecommendations (interactions : List InteractionFinding) :
    List SafetyRecommendation :=
  interactions.map fun finding =>
    let medA := finding.medications.1
    let medB := finding.medications.2
    let alternatives := finding.alternatives.getD []
    let medAAlternatives := (alternatives.lookup medA).getD []
    let medBAlternatives := (alternatives.lookup medB).getD []
    let joined := String.intercalate (", ") (medAAlternatives ++ medBAlternatives)
    if finding.severity = .contraindicated then
      { type := .avoid_combination
      , title := "Avoid combining " ++ medA ++ " and " ++ medB
      , details := finding.reason ++ " Consider alternatives: " ++
          jsOrString joined ("none listed") }
    else if finding.canSeparateBySchedule && jsTruthyOptNat finding.minHoursApart then
      { type := .keep_and_separate
      , title := "Schedule " ++ medA ++ " and " ++ medB ++ " apart"
      , details := "Keep at least " ++ toString (finding.minHoursApart.getD 0) ++
          " hours apart. " ++ finding.reason }
    else
      { type := .replace_medication
      , title := "Replace one medication in " ++ medA ++ " + " ++ medB
      , details := finding.reason ++ " Safer options: " ++
          jsOrString joined ("review formulary alternatives") }

/-- `analyzePrescription` (lines 218–237). -/
def analyzePrescription (input : PrescriptionAnalysisRequest) : PrescriptionAnalysisResult :=
  let interactions := detectInteractions input.medications
  let schedule := optimizeSchedule (buildInitialSchedule input.medications) interactions
  let recommendations := generateRecommendations interactions
  let isSafe := !(interactions.any fun interaction =>
    interaction.severity == .contraindicated ||
      (interaction.severity == .major && !interaction.canSeparateBySchedule))
  { isSafe := isSafe
  , interactions := interactions
  , schedule := schedule
  , recommendations := recommendations }

/-! ## External-check client (src/coretex-api/src/conflict_client.ts) -/

/-- JSON-decoded values, the `unknown` input space of `parseConflictResponse`.
A raw text body that fails `JSON.parse` enters as a `str`. -/
inductive Json where
  | null
  | bool (b : Bool)
  | num (q : ℚ)
  | str (s : String)
  | arr (elems : List Json)
  | obj (fields : List (String × Json))

/-- `ParsedConflict` (conflict_client.ts lines 15–21); optional fields may be
left `undefined` by some branches of the normalizer. -/
structure ParsedConflict where
  hasConflict : Bool
  severity : Option InteractionSeverity := none
  reason : Option String := none
  canSeparateBySchedule : Option Bool := none
  minHoursApart : Option ℚ := none
deriving DecidableEq, Repr

/-- `asRecord` (lines 23–28): only a non-null, non-array object yields a
record. -/
def asRecord : Json → Option (List (String × Json))
  | .obj fields => some fields
  | _ => none

/-- `parseBooleanValue` (lines 30–44). -/
def parseBooleanValue : Json → Option Bool
  | .bool b => some b
  | .num q => if q = 1 then some true else if q = 0 then some false else none
  | .str s =>
    let normalized := jsToLower (jsTrim s)
    if ["true", "yes", "y", "1"].contains normalized then some true
    else if ["false", "no", "n", "0"].contains normalized then some false
    else none
  | _ => none

/-- `readBoolean` (lines 46–52); a missing key reads as `undefined`, which
`parseBooleanValue` maps to `undefined`. -/
def readBoolean (record : List (String × Json)) : List String → Option Bool
  | [] => none
  | key :: keys =>
    match record.lookup key with
    | some v =>
      match parseBooleanValue v with
      | some b => some b
      | none => readBoolean record keys
    | none => readBoolean record keys

/-- `readString` (lines 54–62): first key holding a string with non-empty
trim; the trimmed string is returned. -/
def readString (record : List (String × Json)) : List String → Option String
  | [] => none
  | key :: keys =>
    match record.lookup key with
    | some (.str s) => if jsTrim s = "" then readString record keys else some (jsTrim s)
    | _ => readString record keys

/-- JavaScript `Number(s)` restricted to optionally signed decimal literals;
other convertible shapes (hex, exponents) never appear in the claims. An empty
or all-whitespace string converts to 0, and non-numeric text to NaN (`none`). -/
def jsStringToNumber (s : String) : Option ℚ :=
  let t := trimChars s.data
  if t.isEmpty then some 0
  else
    let signBody : ℚ × List Char :=
      match t with
      | '-' :: rest => (-1, rest)
      | '+' :: rest => (1, rest)
      | cs => (1, cs)
    let sign := signBody.1
    let body := signBody.2
    if body.isEmpty then none
    else
      match splitOnChar '.' body with
      | [intPart] =>
        if intPart.all Char.isDigit then some (sign * jsDigitsToNat intPart) else none
      | [intPart, fracPart] =>
        if intPart.isEmpty && fracPart.isEmpty then none
        else if intPart.all Char.isDigit && fracPart.all Char.isDigit then
          some (sign * (jsDigitsToNat intPart +
            (jsDigitsToNat fracPart : ℚ) / (10 ^ fracPart.length)))
        else none
      | _ => none

/-- `readNumber` (lines 64–78): first key holding a finite number or a string
converting to a finite number. -/
def readNumber (record : List (String × Json)) : List String → Option ℚ
  | [] => none
  | key :: keys =>
    match record.lookup key with
    | some (.num q) => some q
    | some (.str s) =>
      match jsStringToNumber s with
      | some q => some q
      | none => readNumber record keys
    | _ => readNumber record keys

/-- `parseBooleanFromText` (lines 80–128): the layered free-text heuristic. -/
def parseBooleanFromText (text : String) : Option Bool :=
  let normalized := jsToLower text
  if containsSubstr normalized ("low interaction")
      || containsSubstr normalized ("minor interaction")
      || containsSubstr normalized ("relatively safe") then
    some false
  else if containsSubstr normalized ("high interaction")
      || containsSubstr normalized ("moderate interaction")
      || containsSubstr normalized ("high risk")
      || containsSubstr normalized ("moderate risk")
      || containsSubstr normalized ("avoid taking together")
      || containsSubstr normalized ("use caution") then
    some true
  else if containsSubstr normalized ("no conflict")
      || containsSubstr normalized ("no interaction")
      || containsSubstr normalized ("compatible") then
    some false
  else if containsSubstr normalized ("not safe")
      || containsSubstr normalized ("unsafe")
      || containsSubstr normalized ("has conflict")
      || containsSubstr normalized ("has interaction") then
    some true
  else if containsSubstr normalized ("conflict") || containsSubstr normalized ("interaction") then
    some true
  else if containsSubstr normalized ("safe") then
    some false
  else none

/-- `normalizeSeverity` (lines 130–142). -/
def normalizeSeverity : Option String → Option InteractionSeverity
  | none => none
  | some value =>
    let normalized := jsToLower (jsTrim value)
    if normalized = "minor" then some .minor
    else if normalized = "moderate" || normalized = "medium" then some .moderate
    else if normalized = "major" || normalized = "high" || normalized = "severe" then some .major
    else if normalized = "contraindicated" || normalized = "critical" then some .contraindicated
    else none

/-- Result shape of `parseLevel` (lines 144–164). -/
structure ParsedLevel where
  hasConflict : Bool
  severity : Option InteractionSeverity := none
deriving DecidableEq, Repr

/-- `parseLevel` (lines 144–164). -/
def parseLevel : Option String → Option ParsedLevel
  | none => none
  | some value =>
    let normalized := jsToLower (jsTrim value)
    if normalized = "high" then some { hasConflict := true, severity := some .major }
    else if normalized = "moderate" then some { hasConflict := true, severity := some .moderate }
    else if normalized = "low" then some { hasConflict := false, severity := some .minor }
    else if normalized = "minor" then some { hasConflict := false, severity := some .minor }
    else none

/-- The mutable locals of the object branch of `parseConflictResponse`
(lines 192–196). -/
structure ScanState where
  hasConflict : Option Bool := none
  reason : Option String := none
  severity : Option InteractionSeverity := none
  canSeparateBySchedule : Option Bool := none
  minHoursApart : Option ℚ := none
deriving DecidableEq, Repr

/-- Key list for the interaction-level probe (lines 199–205). -/
def levelKeys : List String :=
  ["interaction_level", "interactionLevel", "level", "risk_level", "riskLevel"]

/-- Key list for boolean-like conflict fields (lines 213–225). -/
def conflictBoolKeys : List String :=
  ["conflict", "hasConflict", "has_conflict", "isConflict", "is_conflict",
   "interaction", "isInteraction", "is_interaction", "unsafe", "isUnsafe", "is_unsafe"]

/-- Key list for status/label text fields (lines 229–235). -/
def statusKeys : List String :=
  ["status", "result", "prediction", "decision", "label"]

/-- Key list for reason text fields (lines 242–248). -/
def reasonKeys : List String :=
  ["reason", "message", "detail", "explanation", "notes"]

/-- Key list for severity fields (line 253). -/
def severityKeys : List String :=
  ["severity", "risk", "riskLevel", "risk_level"]

/-- Key list for schedule-separability fields (lines 258–263). -/
def separateKeys : List String :=
  ["canSeparateBySchedule", "can_separate_by_schedule", "canSeparate", "can_separate"]

/-- Key list for minimum-hour fields (lines 267–272). -/
def hourKeys : List String :=
  ["minHoursApart", "min_hours_apart", "hoursApart", "hours_apart"]

/-- One iteration of the scope loop of `parseConflictResponse`
(lines 198–274): each field keeps the value from the earliest scope that
yielded one. -/
def scanScope (st : ScanState) (scope : List (String × Json)) : ScanState :=
  let parsedLevel := parseLevel (readString scope levelKeys)
  let hasConflict1 :=
    match parsedLevel with
    | some lv => match st.hasConflict with
      | some b => some b
      | none => some lv.hasConflict
    | none => st.hasConflict
  let severity1 :=
    match parsedLevel with
    | some lv => match st.severity with
      | some s => some s
      | none => lv.severity
    | none => st.severity
  let hasConflict2 :=
    match hasConflict1 with
    | some b => some b
    | none => readBoolean scope conflictBoolKeys
  let hasConflict3 :=
    match hasConflict2 with
    | some b => some b
    | none =>
      match readString scope statusKeys with
      | some statusText => parseBooleanFromText statusText
      | none => none
  let reason1 :=
    match st.reason with
    | some r => some r
    | none => readString scope reasonKeys
  let severity2 :=
    match severity1 with
    | some s => some s
    | none => normalizeSeverity (readString scope severityKeys)
  let canSeparate1 :=
    match st.canSeparateBySchedule with
    | some b => some b
    | none => readBoolean scope separateKeys
  let minHours1 :=
    match st.minHoursApart with
    | some q => some q
    | none => readNumber scope hourKeys
  { hasConflict := hasConflict3
  , reason := reason1
  , severity := severity2
  , canSeparateBySchedule := canSeparate1
  , minHoursApart := minHours1 }

/-- Fold of `scanScope` over all scopes, starting from all-undefined locals. -/
def scanScopes (scopes : List (List (String × Json))) : ScanState :=
  scopes.foldl scanScope {}

/-- Scope list of the object branch (lines 186–190): the root plus any nested
records under `result`, `data`, `prediction`, `output`, in that order. -/
def conflictScopes (fields : List (String × Json)) : List (List (String × Json)) :=
  fields :: (["result", "data", "prediction", "output"].filterMap fun key =>
    (fields.lookup key).bind asRecord)

/-- The object branch of `parseConflictResponse` (lines 183–283). -/
def parseObjectConflict (fields : List (String × Json)) : ParsedConflict :=
  let st := scanScopes (conflictScopes fields)
  { hasConflict := st.hasConflict.getD false
  , severity := st.severity
  , reason := st.reason
  , canSeparateBySchedule := some (st.canSeparateBySchedule.getD false)
  , minHoursApart := st.minHoursApart }

/-- `parseConflictResponse` (lines 166–283). -/
def parseConflictResponse : Json → ParsedConflict
  | .bool b => { hasConflict := b }
  | .str s => { hasConflict := (parseBooleanFromText s).getD false, reason := some s }
  | .arr [] => { hasConflict := false }
  | .arr (x :: _) => parseConflictResponse x
  | .obj fields => parseObjectConflict fields
  | .null => { hasConflict := false }
  | .num _ => { hasConflict := false }

/-- `buildRecommendations` (lines 285–318). -/
def buildRecommendations (interactions : List InteractionFinding) :
    List SafetyRecommendation :=
  interactions.map fun interaction =>
    let medA := interaction.medications.1
    let medB := interaction.medications.2
    if interaction.severity = .contraindicated then
      { type := .avoid_combination
      , title := "Avoid combining " ++ medA ++ " and " ++ medB
      , details := interaction.reason }
    else if interaction.canSeparateBySchedule && jsTruthyOptNat interaction.minHoursApart then
      { type := .keep_and_separate
      , title := "Separate " ++ medA ++ " and " ++ medB
      , details := "Keep at least " ++ toString (interaction.minHoursApart.getD 0) ++
          " hours apart. " ++ interaction.reason }
    else
      { type := .replace_medication
      , title := "Review " ++ medA ++ " + " ++ medB
      , details := interaction.reason }

/-- `computeSafety` (lines 320–326). -/
def computeSafety (interactions : List InteractionFinding) : Bool :=
  !(interactions.any fun interaction =>
    interaction.severity == .contraindicated ||
      (interaction.severity == .major && !interaction.canSeparateBySchedule))

/-- The ambient configuration and collaborator of the external phase:
`url` models `EXTERNAL_CONFLICT_CHECK_URL` (already trimmed, "" when unset);
`respond drug1 drug2` models one `fetch` of the per-pair GET request followed
by the status check and body decoding of `checkPairConflict` (lines 336–351):
`.error` is a throw (non-2xx status, network failure), `.ok` the JSON-decoded
body (or its raw text as a `Json.str` when parsing fails). -/
structure ExternalEnv where
  url : String
  respond : String → String → Except String Json

/-- `checkPairConflict` (lines 328–354). -/
def checkPairConflict (env : ExternalEnv) (drug1 drug2 : String) :
    Except String ParsedConflict :=
  if env.url = "" then .ok { hasConflict := false }
  else
    match env.respond drug1 drug2 with
    | .error e => .error e
    | .ok data => .ok (parseConflictResponse data)

/-- The external interaction pushed for a conflicting pair
(conflict_client.ts lines 369–380).  In the `minHoursApart` guard the
TypeScript `parsed.canSeparateBySchedule && parsed.minHoursApart` tests
truthiness: `undefined` and `0` are falsy. -/
def mkExternalFinding (nameA nameB : String) (parsed : ParsedConflict) : InteractionFinding :=
  { medications := (nameA, nameB)
  , severity := parsed.severity.getD .major
  , reason := parsed.reason.getD ("Potential interaction detected by the external AI model.")
  , canSeparateBySchedule := parsed.canSeparateBySchedule.getD false
  , minHoursApart :=
      match parsed.minHoursApart with
      | some q =>
        if jsTruthyOptBool parsed.canSeparateBySchedule && !(q == 0) then
          some (max 1 (jsMathRound q)).toNat
        else none
      | none => none
  , alternatives := none }

/-- The sequential pair loop of `collectExternalInteractions`
(lines 356–385); an awaited throw aborts the whole loop. -/
def collectGo (env : ExternalEnv) :
    List (PrescribedMedication × PrescribedMedication) → List InteractionFinding →
    Except String (List InteractionFinding)
  | [], acc => .ok acc
  | (medA, medB) :: rest, acc =>
    match checkPairConflict env medA.name medB.name with
    | .error e => .error e
    | .ok parsed =>
      if !parsed.hasConflict then collectGo env rest acc
      else collectGo env rest (acc ++ [mkExternalFinding medA.name medB.name parsed])

/-- `collectExternalInteractions` (lines 356–385). -/
def collectExternalInteractions (env : ExternalEnv) (payload : PrescriptionAnalysisRequest) :
    Except String (List InteractionFinding) :=
  collectGo env (pairsInOrder payload.medications) []

/-- `analyzePrescriptionWithExternalCheck` (lines 387–411). -/
def analyzePrescriptionWithExternalCheck (env : ExternalEnv)
    (payload : PrescriptionAnalysisRequest) : PrescriptionAnalysisResult :=
  let localResult := analyzePrescription payload
  if env.url = "" then localResult
  else
    match collectExternalInteractions env payload with
    | .ok externalInteractions =>
      { localResult with
        isSafe := computeSafety externalInteractions
      , interactions := externalInteractions
      , recommendations := buildRecommendations externalInteractions }
    | .error _ => localResult

/-! ## Auxiliary notions used only to state the theorems -/

/-- The per-pair summary of one iteration of `collectExternalInteractions`:
the external finding kept for a pair, if its check succeeds and reports a
conflict. -/
def externalFindingOfPair (env : ExternalEnv)
    (pair : PrescribedMedication × PrescribedMedication) : Option InteractionFinding :=
  match checkPairConflict env pair.1.name pair.2.name with
  | .error _ => none
  | .ok parsed =>
    if parsed.hasConflict then some (mkExternalFinding pair.1.name pair.2.name parsed)
    else none

/-- Orders the two names of a recorded pair canonically, so findings that
differ only in the recorded order of the pair compare equal. -/
def normPair (p : String × String) : String × String :=
  if jsStringLt p.2 p.1 then (p.2, p.1) else p

/-- A finding up to the recorded order of its pair. -/
def normFinding (f : InteractionFinding) : InteractionFinding :=
  { f with medications := normPair f.medications }

/-- Whether classification of a payload reaches the object branch of
`parseConflictResponse` (following first elements of arrays). -/
def reachesObjectScope : Json → Bool
  | .obj _ => true
  | .arr (x :: _) => reachesObjectScope x
  | _ => false

/-- Well-formed zero-padded 24-hour "HH:MM" strings. -/
def isValidTime (s : String) : Bool :=
  match s.data with
  | [h1, h2, c, m1, m2] =>
    (c == ':') && h1.isDigit && h2.isDigit && m1.isDigit && m2.isDigit
      && decide (10 * (h1.toNat - 48) + (h2.toNat - 48) < 24)
      && decide (10 * (m1.toNat - 48) + (m2.toNat - 48) < 60)
  | _ => false

/-- Integer reformulation of the gap check (divides by 60 only after the
comparison); used to evaluate `allPairsRespectGap` on concrete inputs. -/
def allPairsRespectGapInt (timesA timesB : List String) (minHours : Nat) : Bool :=
  timesA.all fun timeA =>
    timesB.all fun timeB =>
      !(decide (min |(parseTime timeA : Int) - (parseTime timeB : Int)|
          (1440 - |(parseTime timeA : Int) - (parseTime timeB : Int)|) < 60 * (minHours : Int)))

/-! ## Concrete sample values used by witnesses and counterexamples -/

def aspirinMed : PrescribedMedication :=
  { name := "aspirin", dose := "100mg", frequencyPerDay := 1 }

def warfarinMed : PrescribedMedication :=
  { name := "warfarin", dose := "5mg", frequencyPerDay := 1 }

def samplePatient : PatientProfile :=
  { id := "p1", name := "Pat", age := 50, allergies := [], conditions := [] }

def sampleRequestAW : PrescriptionAnalysisRequest :=
  { diagnosis := "pain", patient := samplePatient, medications := [aspirinMed, warfarinMed] }

def envOffline : ExternalEnv := { url := "", respond := fun _ _ => .ok .null }

def envBoolTrue : ExternalEnv :=
  { url := "http://conflict.example", respond := fun _ _ => .ok (.bool true) }

def extFindingAW : InteractionFinding :=
  { medications := ("aspirin", "warfarin")
  , severity := .major
  , reason := "Potential interaction detected by the external AI model."
  , canSeparateBySchedule := false }

def slotCal : ScheduleSlot := { medication := "calcium", times := ["08:00", "20:00"] }

def slotLevo : ScheduleSlot := { medication := "levothyroxine", times := ["08:00"] }

def slotOther : ScheduleSlot := { medication := "metformin", times := ["08:00"] }

def findingCalLevo : InteractionFinding :=
  { medications := ("calcium", "levothyroxine")
  , severity := .moderate
  , reason := "Calcium reduces levothyroxine absorption."
  , canSeparateBySchedule := true
  , minHoursApart := some 4
  , alternatives := some [("calcium", ["vitamin D only (if clinically acceptable)"])] }

def findingZeroHours : InteractionFinding :=
  { medications := ("calcium", "levothyroxine")
  , severity := .moderate
  , reason := "Calcium reduces levothyroxine absorption."
  , canSeparateBySchedule := true
  , minHoursApart := some 0 }

def parsedSep35 : ParsedConflict :=
  { hasConflict := true, canSeparateBySchedule := some true, minHoursApart := some (7 / 2) }

/-! ## Helper lemmas -/

theorem safetyFlag_false_iff (interactions : List InteractionFinding) :
    computeSafety interactions = false ↔
      ∃ f ∈ interactions,
        f.severity = .contraindicated ∨
          (f.severity = .major ∧ f.canSeparateBySchedule = false) := by
  simp [computeSafety, List.any_eq_true]

theorem analyzePrescription_isSafe_eq (input : PrescriptionAnalysisRequest) :
    (analyzePrescription input).isSafe =
      computeSafety (analyzePrescription input).interactions := rfl

theorem timeDiffHours_lt_iff (a b : String) (m : Nat) :
    timeDiffHours a b < (m : ℚ) ↔
      min |(parseTime a : Int) - (parseTime b : Int)|
        (1440 - |(parseTime a : Int) - (parseTime b : Int)|) < 60 * (m : Int) := by
  unfold timeDiffHours
  rw [div_lt_iff₀ (by norm_num)]
  constructor
  · intro h
    have h2 : ((min |(parseTime a : Int) - (parseTime b : Int)|
        (1440 - |(parseTime a : Int) - (parseTime b : Int)|) : Int) : ℚ) < (m : ℚ) * 60 := h
    have h3 : ((min |(parseTime a : Int) - (parseTime b : Int)|
        (1440 - |(parseTime a : Int) - (parseTime b : Int)|) : Int) : ℚ) < ((60 * (m : Int) : Int) : ℚ) := by
      push_cast
      push_cast at h2
      linarith
    exact_mod_cast h3
  · intro h
    have h2 : ((min |(parseTime a : Int) - (parseTime b : Int)|
        (1440 - |(parseTime a : Int) - (parseTime b : Int)|) : Int) : ℚ) < ((60 * (m : Int) : Int) : ℚ) := by
      exact_mod_cast h
    push_cast at h2 ⊢
    linarith

theorem allPairsRespectGap_eq_int (timesA timesB : List String) (minHours : Nat) :
    allPairsRespectGap timesA timesB minHours = allPairsRespectGapInt timesA timesB minHours := by
  unfold allPairsRespectGap allPairsRespectGapInt
  congr 1
  funext timeA
  congr 1
  funext timeB
  congr 1
  exact decide_eq_decide.mpr (timeDiffHours_lt_iff timeA timeB minHours)

theorem updateFirst_getElem? {α : Type} (p : α → Bool) (f : α → α) :
    ∀ (l : List α) (k : Nat) (x : α), l[k]? = some x → p x = false →
      (updateFirst p f l)[k]? = some x := by
  intro l
  induction l with
  | nil => intro k x hk _; simp at hk
  | cons y ys ih =>
    intro k x hk hpx
    cases k with
    | zero =>
      simp only [List.getElem?_cons_zero, Option.some.injEq] at hk
      subst hk
      simp only [updateFirst, hpx, Bool.false_eq_true, if_false, List.getElem?_cons_zero]
    | succ k =>
      simp only [List.getElem?_cons_succ] at hk
      simp only [updateFirst]
      by_cases hpy : p y = true
      · simp only [hpy, if_true, List.getElem?_cons_succ]
        exact hk
      · have hpy2 : p y = false := by simpa using hpy
        simp only [hpy2, Bool.false_eq_true, if_false, List.getElem?_cons_succ]
        exact ih k x hk hpx

theorem collectGo_error (env : ExternalEnv) :
    ∀ (pairs : List (PrescribedMedication × PrescribedMedication))
      (acc : List InteractionFinding) (p : PrescribedMedication × PrescribedMedication)
      (e : String), p ∈ pairs → checkPairConflict env p.1.name p.2.name = .error e →
      ∃ e2, collectGo env pairs acc = .error e2 := by
  intro pairs
  induction pairs with
  | nil => intro acc p e hp; simp at hp
  | cons q rest ih =>
    intro acc p e hp hchk
    obtain ⟨qa, qb⟩ := q
    rcases List.mem_cons.mp hp with hq | hq
    · subst hq
      exact ⟨e, by simp only [collectGo, hchk]⟩
    · cases hc : checkPairConflict env qa.name qb.name with
      | error e2 => exact ⟨e2, by simp only [collectGo, hc]⟩
      | ok parsed =>
        by_cases hcf : (!parsed.hasConflict) = true
        · obtain ⟨e2, h2⟩ := ih acc p e hq hchk
          exact ⟨e2, by simp only [collectGo, hc, hcf, if_true]; exact h2⟩
        · have hcf2 : (!parsed.hasConflict) = false := by simpa using hcf
          obtain ⟨e2, h2⟩ := ih (acc ++ [mkExternalFinding qa.name qb.name parsed]) p e hq hchk
          exact ⟨e2, by
            simp only [collectGo, hc, hcf2, Bool.false_eq_true, if_false]; exact h2⟩

theorem collectGo_ok (env : ExternalEnv) :
    ∀ (pairs : List (PrescribedMedication × PrescribedMedication))
      (acc : List InteractionFinding),
      (∀ p ∈ pairs, ∃ parsed, checkPairConflict env p.1.name p.2.name = .ok parsed) →
      collectGo env pairs acc = .ok (acc ++ pairs.filterMap (externalFindingOfPair env)) := by
  intro pairs
  induction pairs with
  | nil => intro acc _; simp [collectGo]
  | cons q rest ih =>
    intro acc h
    obtain ⟨qa, qb⟩ := q
    obtain ⟨parsed, hq⟩ := h (qa, qb) (List.mem_cons_self _ _)
    have hrest := fun p hp => h p (List.mem_cons_of_mem _ hp)
    by_cases hcf : parsed.hasConflict = true
    · have hext : externalFindingOfPair env (qa, qb) =
          some (mkExternalFinding qa.name qb.name parsed) := by
        simp [externalFindingOfPair, hq, hcf]
      simp only [collectGo, hq, hcf, Bool.not_true, Bool.false_eq_true, if_false]
      rw [ih (acc ++ [mkExternalFinding qa.name qb.name parsed]) hrest]
      simp [List.filterMap_cons, hext]
    · have hcf2 : parsed.hasConflict = false := by simpa using hcf
      have hext : externalFindingOfPair env (qa, qb) = none := by
        simp [externalFindingOfPair, hq, hcf2]
      simp only [collectGo, hq, hcf2, Bool.not_false, if_true]
      rw [ih acc hrest]
      simp [List.filterMap_cons, hext]

/-! ## Claim theorems -/

/-- C1: for every analysis request, the result's `isSafe` field is false iff
some finding in the result's interaction set has severity contraindicated, or
has severity major with `canSeparateBySchedule` false; and the same
characterization holds for the safety recomputation `computeSafety` used over
the externally derived interaction set. -/
theorem claim1_isSafe_iff :
    ∀ (input : PrescriptionAnalysisRequest) (interactions : List InteractionFinding),
      ((analyzePrescription input).isSafe = false ↔
        ∃ f ∈ (analyzePrescription input).interactions,
          f.severity = .contraindicated ∨
            (f.severity = .major ∧ f.canSeparateBySchedule = false))
      ∧ (computeSafety interactions = false ↔
          ∃ f ∈ interactions,
            f.severity = .contraindicated ∨
              (f.severity = .major ∧ f.canSeparateBySchedule = false)) := by
  intro input interactions
  exact ⟨by rw [analyzePrescription_isSafe_eq]; exact safetyFlag_false_iff _,
    safetyFlag_false_iff _⟩

/-- C2: if no external endpoint is configured, or the external phase fails
(`collectExternalInteractions` throws), or indeed any per-pair external check
throws, then `analyzePrescriptionWithExternalCheck` returns exactly the local
`analyzePrescription` result — no partial merge, no error surfaced. -/
theorem claim2_local_fallback :
    ∀ (env : ExternalEnv) (payload : PrescriptionAnalysisRequest),
      (env.url = "" →
        analyzePrescriptionWithExternalCheck env payload = analyzePrescription payload)
      ∧ (∀ e, collectExternalInteractions env payload = .error e →
          analyzePrescriptionWithExternalCheck env payload = analyzePrescription payload)
      ∧ (∀ pair ∈ pairsInOrder payload.medications, ∀ e,
          checkPairConflict env pair.1.name pair.2.name = .error e →
          analyzePrescriptionWithExternalCheck env payload = analyzePrescription payload) := by
  intro env payload
  have part2 : ∀ e, collectExternalInteractions env payload = .error e →
      analyzePrescriptionWithExternalCheck env payload = analyzePrescription payload := by
    intro e he
    by_cases hurl : env.url = ""
    · simp [analyzePrescriptionWithExternalCheck, hurl]
    · simp [analyzePrescriptionWithExternalCheck, hurl, he]
  refine ⟨fun h => by simp [analyzePrescriptionWithExternalCheck, h], part2, ?_⟩
  intro pair hpair e hchk
  obtain ⟨e2, h2⟩ :=
    collectGo_error env (pairsInOrder payload.medications) [] pair e hpair hchk
  exact part2 e2 h2

/-- Witness for C2 at a concrete request with no configured endpoint. -/
theorem claim2_witness :
    analyzePrescriptionWithExternalCheck envOffline sampleRequestAW =
      analyzePrescription sampleRequestAW :=
  (claim2_local_fallback envOffline sampleRequestAW).1 rfl

/-- C5: during schedule optimization, the processing of one finding leaves
every slot whose medication name is not one of the finding's two pair names
completely unchanged (same times, same note, same position). -/
theorem claim5_frame (sched : List ScheduleSlot) (finding : InteractionFinding)
    (k : Nat) (slot : ScheduleSlot)
    (hk : sched[k]? = some slot)
    (h1 : slot.medication ≠ finding.medications.1)
    (h2 : slot.medication ≠ finding.medications.2) :
    (processFinding sched finding)[k]? = some slot := by
  have hp : (slot.medication == finding.medications.2) = false := by
    simpa using h2
  unfold processFinding
  cases hm : finding.minHoursApart with
  | none => exact hk
  | some m =>
    by_cases hg : (!finding.canSeparateBySchedule || m == 0) = true
    · simp only [hg, if_true]
      exact hk
    · have hg2 : (!finding.canSeparateBySchedule || m == 0) = false := by simpa using hg
      simp only [hg2, Bool.false_eq_true, if_false]
      cases hA : sched.find? (fun s => s.medication == finding.medications.1) with
      | none =>
        cases hB : sched.find? (fun s => s.medication == finding.medications.2) with
        | none => exact hk
        | some medB => exact hk
      | some medA =>
        cases hB : sched.find? (fun s => s.medication == finding.medications.2) with
        | none => exact hk
        | some medB =>
          by_cases hgap : allPairsRespectGap medA.times medB.times m = true
          · simp only [hgap, if_true]
            exact updateFirst_getElem? _ _ sched k slot hk hp
          · have hgap2 : allPairsRespectGap medA.times medB.times m = false := by
              simpa using hgap
            simp only [hgap2, Bool.false_eq_true, if_false]
            cases ht : tryShifts medA.times medB.times m m with
            | some candidate => exact updateFirst_getElem? _ _ sched k slot hk hp
            | none => exact updateFirst_getElem? _ _ sched k slot hk hp

/-- Witness for C5: a three-slot schedule where the third slot is untouched by
the calcium/levothyroxine finding. -/
theorem claim5_witness :
    (processFinding [slotCal, slotLevo, slotOther] findingCalLevo)[2]? = some slotOther :=
  claim5_frame [slotCal, slotLevo, slotOther] findingCalLevo 2 slotOther (by rfl)
    (by decide) (by decide)

/-- C6: the external response normalizer classifies by runtime shape — a
boolean payload is taken directly as `hasConflict`; a string payload gets
`hasConflict` from the free-text heuristic (false when indeterminate) with the
string itself as reason; an empty array yields no conflict and a non-empty
array recurses on its first element; and the three concrete examples behave
as stated. -/
theorem claim6_normalizer_classification :
    (∀ b, (parseConflictResponse (.bool b)).hasConflict = b)
    ∧ (∀ s, (parseConflictResponse (.str s)).hasConflict = (parseBooleanFromText s).getD false
        ∧ (parseConflictResponse (.str s)).reason = some s)
    ∧ (parseConflictResponse (.arr [])).hasConflict = false
    ∧ (∀ x xs, parseConflictResponse (.arr (x :: xs)) = parseConflictResponse x)
    ∧ (parseConflictResponse (.obj [("interaction_level", Json.str ("high"))])).hasConflict = true
    ∧ (parseConflictResponse (.obj [("interaction_level", Json.str ("high"))])).severity
        = some .major
    ∧ (parseConflictResponse (.obj [("status", Json.str ("no conflict found"))])).hasConflict
        = false
    ∧ (parseConflictResponse (.str ("Use caution when combining these drugs"))).hasConflict
        = true :=
  ⟨fun _ => rfl, fun _ => ⟨rfl, rfl⟩, rfl, fun _ _ => rfl,
    by decide, by decide, by decide, by decide⟩

/-- C7 (amended): when the external payload leaves a field undetermined, the
normalized output has `hasConflict = false`; `canSeparateBySchedule` defaults
to false on the object branch (on boolean/string/array/non-object payloads the
field is left undefined — see the counterexample — which every consumer
coalesces to false); and `minHoursApart` appears in the resulting external
interaction only when `canSeparateBySchedule` resolved true and a (nonzero)
finite numeric value was found, in which case it is rounded to the nearest
integer and floored at 1. -/
theorem claim7_defaults_and_minHours :
    (∀ fields : List (String × Json),
      ((scanScopes (conflictScopes fields)).hasConflict = none →
        (parseConflictResponse (.obj fields)).hasConflict = false)
      ∧ ((scanScopes (conflictScopes fields)).canSeparateBySchedule = none →
        (parseConflictResponse (.obj fields)).canSeparateBySchedule = some false))
    ∧ (∀ s, parseBooleanFromText s = none →
        (parseConflictResponse (.str s)).hasConflict = false)
    ∧ (∀ nameA nameB parsed k,
        (mkExternalFinding nameA nameB parsed).minHoursApart = some k →
        parsed.canSeparateBySchedule = some true
          ∧ ∃ q, parsed.minHoursApart = some q ∧ q ≠ 0
              ∧ k = (max 1 (jsMathRound q)).toNat) := by
  refine ⟨?_, ?_, ?_⟩
  · intro fields
    constructor
    · intro h
      show (parseObjectConflict fields).hasConflict = false
      simp [parseObjectConflict, h]
    · intro h
      show (parseObjectConflict fields).canSeparateBySchedule = some false
      simp [parseObjectConflict, h]
  · intro s h
    show (parseBooleanFromText s).getD false = false
    simp [h]
  · intro nameA nameB parsed k h
    simp only [mkExternalFinding] at h
    cases hq : parsed.minHoursApart with
    | none => rw [hq] at h; simp at h
    | some q =>
      rw [hq] at h
      have h3 : (if (jsTruthyOptBool parsed.canSeparateBySchedule && !(q == 0)) = true then
          some (max 1 (jsMathRound q)).toNat else none) = some k := h
      by_cases hcond : (jsTruthyOptBool parsed.canSeparateBySchedule && !(q == 0)) = true
      · rw [if_pos hcond] at h3
        have hk : k = (max 1 (jsMathRound q)).toNat := by
          simpa using h3.symm
        have hand := (Bool.and_eq_true _ _).mp hcond
        have hsep : parsed.canSeparateBySchedule = some true := by
          cases hcs : parsed.canSeparateBySchedule with
          | none => rw [hcs] at hand; simp [jsTruthyOptBool] at hand
          | some b =>
            rw [hcs] at hand
            cases b with
            | false => simp [jsTruthyOptBool] at hand
            | true => rfl
        have hq0 : q ≠ 0 := by
          intro h0
          rw [h0] at hand
          simp at hand
        exact ⟨hsep, q, rfl, hq0, hk⟩
      · rw [if_neg hcond] at h3
        simp at h3

/-- Witness for C7, applying the minHoursApart clause at a parsed conflict
carrying `canSeparateBySchedule = true` and `minHoursApart = 3.5`, which the
merge rounds to 4. -/
theorem claim7_witness :
    parsedSep35.canSeparateBySchedule = some true
      ∧ ∃ q, parsedSep35.minHoursApart = some q ∧ q ≠ 0
          ∧ 4 = (max 1 (jsMathRound q)).toNat :=
  claim7_defaults_and_minHours.2.2 ("aspirin") ("warfarin") parsedSep35 4 (by
    have hr : jsMathRound (7 / 2) = 4 := by
      rw [jsMathRound, show ((7 : ℚ) / 2 + 1 / 2) = 4 by norm_num]
      norm_num
    simp [mkExternalFinding, parsedSep35, jsTruthyOptBool, hr])

/-- Counterexample to C7 as stated: a payload that leaves every field
undetermined (JSON null) produces `hasConflict = false` but leaves
`canSeparateBySchedule` undefined rather than false. -/
theorem claim7_counterexample :
    (parseConflictResponse Json.null).hasConflict = false
      ∧ (parseConflictResponse Json.null).canSeparateBySchedule ≠ some false := by
  decide

theorem bool_eq_true_or_eq_false (b : Bool) : b = true ∨ b = false := by
  cases b
  · exact Or.inr rfl
  · exact Or.inl rfl

/-- C10 (amended): `parseConflictResponse` is a total function of the decoded
payload (embedded as such, so it terminates without throwing on any input) and
`hasConflict` is always a genuine boolean; `canSeparateBySchedule`, however,
is a genuine boolean exactly when classification reaches the object branch
(following first elements of arrays), and remains undefined on boolean,
string, empty-array, null and number payloads. -/
theorem claim10_total_shape :
    ∀ v : Json,
      ((parseConflictResponse v).canSeparateBySchedule.isSome = reachesObjectScope v)
      ∧ ((parseConflictResponse v).hasConflict = true
          ∨ (parseConflictResponse v).hasConflict = false)
  | .null => ⟨rfl, bool_eq_true_or_eq_false _⟩
  | .bool _ => ⟨rfl, bool_eq_true_or_eq_false _⟩
  | .num _ => ⟨rfl, bool_eq_true_or_eq_false _⟩
  | .str _ => ⟨rfl, bool_eq_true_or_eq_false _⟩
  | .arr [] => ⟨rfl, bool_eq_true_or_eq_false _⟩
  | .arr (x :: xs) => by
    have ih := claim10_total_shape x
    simpa [parseConflictResponse, reachesObjectScope] using ih
  | .obj _ => ⟨rfl, bool_eq_true_or_eq_false _⟩

/-- Counterexample to C10 as stated: on a boolean payload the returned record
leaves `canSeparateBySchedule` undefined, not a genuine boolean. -/
theorem claim10_counterexample :
    (parseConflictResponse (Json.bool true)).canSeparateBySchedule = none := by
  decide

/-- C3: when an external endpoint is configured and every per-pair external
check completes without throwing, the returned result's interactions are
exactly the externally derived set (only pairs whose normalized response has
`hasConflict = true`, built by `mkExternalFinding`, which defaults a missing
severity to major and a missing reason to the generic message); `isSafe` and
`recommendations` are recomputed from that set, and the schedule equals the
original locally computed schedule. -/
theorem claim3_external_merge (env : ExternalEnv) (payload : PrescriptionAnalysisRequest)
    (ext : List InteractionFinding)
    (hurl : env.url ≠ "")
    (hok : ∀ p ∈ pairsInOrder payload.medications,
      ∃ parsed, checkPairConflict env p.1.name p.2.name = .ok parsed)
    (hext : ext = (pairsInOrder payload.medications).filterMap (externalFindingOfPair env)) :
    analyzePrescriptionWithExternalCheck env payload =
      { isSafe := computeSafety ext
      , interactions := ext
      , schedule := (analyzePrescription payload).schedule
      , recommendations := buildRecommendations ext } := by
  have hcoll : collectExternalInteractions env payload = .ok ext := by
    rw [collectExternalInteractions, collectGo_ok env _ [] hok, List.nil_append, hext]
  simp only [analyzePrescriptionWithExternalCheck, hurl, if_false, hcoll]

/-- Witness for C3 at a concrete configured endpoint whose every response is
the boolean `true`. -/
theorem claim3_witness :
    analyzePrescriptionWithExternalCheck envBoolTrue sampleRequestAW =
      { isSafe := computeSafety [extFindingAW]
      , interactions := [extFindingAW]
      , schedule := (analyzePrescription sampleRequestAW).schedule
      , recommendations := buildRecommendations [extFindingAW] } :=
  claim3_external_merge envBoolTrue sampleRequestAW [extFindingAW] (by decide)
    (by
      intro p hp
      exact ⟨parseConflictResponse (.bool true), by simp [checkPairConflict, envBoolTrue]⟩)
    (by
      simp [sampleRequestAW, pairsInOrder, externalFindingOfPair, checkPairConflict,
        envBoolTrue, parseConflictResponse, mkExternalFinding, extFindingAW,
        aspirinMed, warfarinMed])

theorem tryShifts_none (timesA timesB : List String) (minHours : Nat) :
    ∀ (n shift : Nat), 13 - shift ≤ n →
      (∀ k, shift ≤ k → k ≤ 12 →
        allPairsRespectGap timesA (shiftTimes timesB k) minHours = false) →
      tryShifts timesA timesB minHours shift = none := by
  intro n
  induction n with
  | zero =>
    intro shift hle _
    rw [tryShifts, if_neg (by omega)]
  | succ n ih =>
    intro shift hle hall
    rw [tryShifts]
    by_cases h12 : shift ≤ 12
    · rw [if_pos h12]
      have hfail := hall shift le_rfl h12
      simp only [hfail, Bool.false_eq_true, if_false]
      exact ih (shift + 1) (by omega) (fun k hk hk12 => hall k (by omega) hk12)
    · rw [if_neg h12]

theorem tryShifts_first (timesA timesB : List String) (minHours : Nat) :
    ∀ (n shift k : Nat), 13 - shift ≤ n → shift ≤ k → k ≤ 12 →
      allPairsRespectGap timesA (shiftTimes timesB k) minHours = true →
      (∀ j, shift ≤ j → j < k →
        allPairsRespectGap timesA (shiftTimes timesB j) minHours = false) →
      tryShifts timesA timesB minHours shift = some (shiftTimes timesB k) := by
  intro n
  induction n with
  | zero =>
    intro shift k hle hsk hk12 _ _
    exact absurd hk12 (by omega)
  | succ n ih =>
    intro shift k hle hsk hk12 hpass hfirst
    rw [tryShifts, if_pos (by omega)]
    by_cases hsk2 : shift = k
    · subst hsk2
      simp only [hpass, if_true]
    · have hlt : shift < k := by omega
      have hfail := hfirst shift le_rfl hlt
      simp only [hfail, Bool.false_eq_true, if_false]
      exact ih (shift + 1) k (by omega) (by omega) hk12 hpass
        (fun j hj hjk => hfirst j (by omega) hjk)

/-- C4 (amended): for every finding with `canSeparateBySchedule` true and
`minHoursApart` set to a nonzero value (the optimizer's truthiness guard
treats `minHoursApart = 0` as unset — see the counterexample), processed in
detection order with both named slots present: if every cross-pair circular
hour distance already reaches `minHoursApart`, the second slot only gains the
informational note (its times are unchanged); otherwise the first integer
shift in `minHoursApart, …, 12` whose shifted candidate passes the gap check
is applied to the second slot's times with the shifted note; and if every
shift in that range fails, the times stay unmodified with the unable note. -/
theorem claim4_optimizer (sched : List ScheduleSlot) (finding : InteractionFinding)
    (minHours : Nat) (medA medB : ScheduleSlot)
    (hsep : finding.canSeparateBySchedule = true)
    (hmin : finding.minHoursApart = some minHours)
    (hmin0 : minHours ≠ 0)
    (hA : sched.find? (fun s => s.medication == finding.medications.1) = some medA)
    (hB : sched.find? (fun s => s.medication == finding.medications.2) = some medB) :
    (allPairsRespectGap medA.times medB.times minHours = true →
      processFinding sched finding =
        updateFirst (fun s => s.medication == finding.medications.2)
          (fun s => { s with note := some (keepApartNote minHours medA.medication) }) sched)
    ∧ (∀ k, allPairsRespectGap medA.times medB.times minHours = false →
        minHours ≤ k → k ≤ 12 →
        allPairsRespectGap medA.times (shiftTimes medB.times k) minHours = true →
        (∀ j, minHours ≤ j → j < k →
          allPairsRespectGap medA.times (shiftTimes medB.times j) minHours = false) →
        processFinding sched finding =
          updateFirst (fun s => s.medication == finding.medications.2)
            (fun s => { s with times := shiftTimes medB.times k
                             , note := some (shiftedNote minHours medA.medication) }) sched)
    ∧ (allPairsRespectGap medA.times medB.times minHours = false →
        (∀ k, minHours ≤ k → k ≤ 12 →
          allPairsRespectGap medA.times (shiftTimes medB.times k) minHours = false) →
        processFinding sched finding =
          updateFirst (fun s => s.medication == finding.medications.2)
            (fun s => { s with note := some (unableNote medA.medication) }) sched) := by
  have hguard : (!finding.canSeparateBySchedule || minHours == 0) = false := by
    simp [hsep, hmin0]
  have hred : processFinding sched finding =
      if allPairsRespectGap medA.times medB.times minHours then
        updateFirst (fun s => s.medication == finding.medications.2)
          (fun s => { s with note := some (keepApartNote minHours medA.medication) }) sched
      else
        match tryShifts medA.times medB.times minHours minHours with
        | some candidate =>
          updateFirst (fun s => s.medication == finding.medications.2)
            (fun s => { s with times := candidate
                             , note := some (shiftedNote minHours medA.medication) }) sched
        | none =>
          updateFirst (fun s => s.medication == finding.medications.2)
            (fun s => { s with note := some (unableNote medA.medication) }) sched := by
    unfold processFinding
    rw [hmin]
    simp only [hguard, Bool.false_eq_true, if_false, hA, hB]
  refine ⟨?_, ?_, ?_⟩
  · intro hgap
    rw [hred, if_pos hgap]
  · intro k hgap hk1 hk2 hpass hfirst
    rw [hred, if_neg (by simp [hgap]),
      tryShifts_first medA.times medB.times minHours 13 minHours k (by omega) hk1 hk2
        hpass hfirst]
  · intro hgap hall
    rw [hred, if_neg (by simp [hgap]),
      tryShifts_none medA.times medB.times minHours 13 minHours (by omega) hall]

/-- Witness for C4: the calcium/levothyroxine finding (4-hour separation)
finds its first working shift at 4 hours and retimes the second slot. -/
theorem claim4_witness :
    processFinding [slotCal, slotLevo] findingCalLevo =
      updateFirst (fun s => s.medication == findingCalLevo.medications.2)
        (fun s => { s with times := shiftTimes slotLevo.times 4
                         , note := some (shiftedNote 4 slotCal.medication) })
        [slotCal, slotLevo] :=
  (claim4_optimizer [slotCal, slotLevo] findingCalLevo 4 slotCal slotLevo rfl rfl
      (by decide) (by decide) (by decide)).2.1 4
    (by rw [allPairsRespectGap_eq_int]; decide)
    (by decide) (by decide)
    (by rw [allPairsRespectGap_eq_int]; decide)
    (fun j hj1 hj2 => absurd (Nat.lt_of_le_of_lt hj1 hj2) (lt_irrefl 4))

/-- Counterexample to C4 as stated: a finding whose `minHoursApart` is set to
the value 0.  The gap check trivially passes, so the claim requires an
informational note on the second slot, but the optimizer's `!minHoursApart`
guard treats 0 as unset and leaves the schedule entirely unchanged, with no
note. -/
theorem claim4_counterexample :
    allPairsRespectGap slotCal.times slotLevo.times 0 = true
      ∧ optimizeSchedule [slotCal, slotLevo] [findingZeroHours] = [slotCal, slotLevo]
      ∧ slotLevo.note = none := by
  refine ⟨?_, by decide, rfl⟩
  rw [allPairsRespectGap_eq_int]
  decide

theorem splitOnChar_sepFree (sep : Char) :
    ∀ l : List Char, (∀ c ∈ l, c ≠ sep) → splitOnChar sep l = [l] := by
  intro l
  induction l with
  | nil => intro _; rfl
  | cons c cs ih =>
    intro h
    have hc : ¬(c = sep) := h c (List.mem_cons_self _ _)
    have hcs := ih (fun x hx => h x (List.mem_cons_of_mem _ hx))
    simp only [splitOnChar, if_neg hc, hcs]

theorem splitOnChar_append (sep : Char) :
    ∀ (l r : List Char), (∀ c ∈ l, c ≠ sep) →
      splitOnChar sep (l ++ sep :: r) = l :: splitOnChar sep r := by
  intro l
  induction l with
  | nil =>
    intro r _
    simp [splitOnChar]
  | cons c cs ih =>
    intro r h
    have hc : ¬(c = sep) := h c (List.mem_cons_self _ _)
    have hcs := ih r (fun x hx => h x (List.mem_cons_of_mem _ hx))
    simp only [List.cons_append, splitOnChar, if_neg hc, List.append_eq, hcs]

theorem jsDigitsToNat_pair (a b : Char) :
    jsDigitsToNat [a, b] = (a.toNat - 48) * 10 + (b.toNat - 48) := by
  simp [jsDigitsToNat, List.foldl]

theorem digit_ne_colon (c : Char) (h : c.isDigit = true) : c ≠ ':' := by
  intro hc
  subst hc
  exact absurd h (by decide)

theorem parseTime_lt_of_valid (s : String) (h : isValidTime s = true) :
    parseTime s < 1440 := by
  unfold isValidTime at h
  split at h
  · rename_i h1 h2 c m1 m2 heq
    simp only [Bool.and_eq_true, beq_iff_eq, decide_eq_true_eq] at h
    obtain ⟨⟨⟨⟨⟨⟨hc, hd1⟩, hd2⟩, hd3⟩, hd4⟩, hh⟩, hm⟩ := h
    subst hc
    unfold parseTime
    rw [heq,
      show ([h1, h2, ':', m1, m2] : List Char) = [h1, h2] ++ ':' :: [m1, m2] from rfl,
      splitOnChar_append ':' [h1, h2] [m1, m2] (by
        intro x hx
        rcases List.mem_cons.mp hx with hx1 | hx2
        · subst hx1; exact digit_ne_colon x hd1
        · have hx3 : x = h2 := by simpa using hx2
          subst hx3; exact digit_ne_colon x hd2),
      splitOnChar_sepFree ':' [m1, m2] (by
        intro x hx
        rcases List.mem_cons.mp hx with hx1 | hx2
        · subst hx1; exact digit_ne_colon x hd3
        · have hx3 : x = m2 := by simpa using hx2
          subst hx3; exact digit_ne_colon x hd4)]
    show jsDigitsToNat [h1, h2] * 60 + jsDigitsToNat [m1, m2] < 1440
    rw [jsDigitsToNat_pair, jsDigitsToNat_pair]
    omega
  · exact absurd h (by simp)

theorem timeDiffHours_eq (a b : String) :
    timeDiffHours a b =
      ((min |(parseTime a : Int) - (parseTime b : Int)|
        (1440 - |(parseTime a : Int) - (parseTime b : Int)|) : Int) : ℚ) / 60 := rfl

/-- C9: for all valid 24-hour "HH:MM" time strings `a` and `b`,
`timeDiffHours a b` equals `timeDiffHours b a` and lies between 0 and 12
inclusive. -/
theorem claim9_timeDiff (a b : String)
    (ha : isValidTime a = true) (hb : isValidTime b = true) :
    timeDiffHours a b = timeDiffHours b a
      ∧ 0 ≤ timeDiffHours a b ∧ timeDiffHours a b ≤ 12 := by
  have hpa := parseTime_lt_of_valid a ha
  have hpb := parseTime_lt_of_valid b hb
  have habs : |(parseTime a : Int) - (parseTime b : Int)| ≤ 1439 := by
    rw [abs_le]
    constructor <;> omega
  have habs0 : (0 : Int) ≤ |(parseTime a : Int) - (parseTime b : Int)| := abs_nonneg _
  refine ⟨?_, ?_, ?_⟩
  · rw [timeDiffHours_eq, timeDiffHours_eq, abs_sub_comm]
  · rw [timeDiffHours_eq]
    apply div_nonneg _ (by norm_num)
    have h3 : (0 : Int) ≤ min |(parseTime a : Int) - (parseTime b : Int)|
        (1440 - |(parseTime a : Int) - (parseTime b : Int)|) :=
      le_min habs0 (by omega)
    exact_mod_cast h3
  · rw [timeDiffHours_eq, div_le_iff₀ (by norm_num)]
    have h4 : min |(parseTime a : Int) - (parseTime b : Int)|
        (1440 - |(parseTime a : Int) - (parseTime b : Int)|) ≤ 720 := by
      rcases le_or_lt |(parseTime a : Int) - (parseTime b : Int)| 720 with hle | hgt
      · exact le_trans (min_le_left _ _) hle
      · exact le_trans (min_le_right _ _) (by omega)
    calc ((min |(parseTime a : Int) - (parseTime b : Int)|
          (1440 - |(parseTime a : Int) - (parseTime b : Int)|) : Int) : ℚ)
        ≤ (720 : ℚ) := by exact_mod_cast h4
      _ ≤ 12 * 60 := by norm_num

/-- Witness for C9 at the concrete times 08:00 and 20:00 (distance exactly
12 hours). -/
theorem claim9_witness :
    timeDiffHours ("08:00") ("20:00") = timeDiffHours ("20:00") ("08:00")
      ∧ 0 ≤ timeDiffHours ("08:00") ("20:00") ∧ timeDiffHours ("08:00") ("20:00") ≤ 12 :=
  claim9_timeDiff ("08:00") ("20:00") (by decide) (by decide)

theorem char_eq_of_toNat_eq (a b : Char) (h : a.toNat = b.toNat) : a = b :=
  Char.ext (UInt32.ext h)

theorem lexLt_asymm : ∀ (x y : List Char), lexLt x y = true → lexLt y x = false := by
  intro x
  induction x with
  | nil =>
    intro y h
    cases y with
    | nil => exact absurd h (by simp [lexLt])
    | cons b bs => simp [lexLt]
  | cons a as ih =>
    intro y h
    cases y with
    | nil => exact absurd h (by simp [lexLt])
    | cons b bs =>
      simp only [lexLt] at h ⊢
      by_cases hab : a.toNat < b.toNat
      · rw [if_neg (by omega), if_pos hab]
      · by_cases hba : b.toNat < a.toNat
        · rw [if_neg hab, if_pos hba] at h
          exact absurd h (by simp)
        · rw [if_neg hab, if_neg hba] at h
          rw [if_neg hba, if_neg hab]
          exact ih bs h

theorem lexLt_eq_of_both_false :
    ∀ (x y : List Char), lexLt x y = false → lexLt y x = false → x = y := by
  intro x
  induction x with
  | nil =>
    intro y h1 _
    cases y with
    | nil => rfl
    | cons b bs => exact absurd h1 (by simp [lexLt])
  | cons a as ih =>
    intro y h1 h2
    cases y with
    | nil => exact absurd h2 (by simp [lexLt])
    | cons b bs =>
      simp only [lexLt] at h1 h2
      by_cases hab : a.toNat < b.toNat
      · rw [if_pos hab] at h1
        exact absurd h1 (by simp)
      · by_cases hba : b.toNat < a.toNat
        · rw [if_pos hba] at h2
          exact absurd h2 (by simp)
        · rw [if_neg hab, if_neg hba] at h1
          rw [if_neg hba, if_neg hab] at h2
          have hchar : a = b := char_eq_of_toNat_eq a b (by omega)
          subst hchar
          rw [ih bs h1 h2]

theorem jsStringLt_asymm (a b : String) (h : jsStringLt a b = true) :
    jsStringLt b a = false :=
  lexLt_asymm _ _ h

theorem jsStringLt_eq_of_both_false (a b : String)
    (h1 : jsStringLt a b = false) (h2 : jsStringLt b a = false) : a = b := by
  have hdata := lexLt_eq_of_both_false a.data b.data h1 h2
  cases a
  cases b
  exact congrArg String.mk hdata

theorem toPairKey_comm (a b : String) : toPairKey a b = toPairKey b a := by
  unfold toPairKey
  by_cases h1 : jsStringLt (jsToLower b) (jsToLower a) = true
  · rw [if_pos h1, if_neg (by simp [jsStringLt_asymm _ _ h1])]
  · have h1f : jsStringLt (jsToLower b) (jsToLower a) = false := by simpa using h1
    by_cases h2 : jsStringLt (jsToLower a) (jsToLower b) = true
    · rw [if_neg h1, if_pos h2]
    · have h2f : jsStringLt (jsToLower a) (jsToLower b) = false := by simpa using h2
      have heq := jsStringLt_eq_of_both_false _ _ h2f h1f
      rw [if_neg h1, if_neg h2, heq]

theorem normPair_comm (x y : String) : normPair (x, y) = normPair (y, x) := by
  unfold normPair
  by_cases h1 : jsStringLt y x = true
  · rw [if_pos h1, if_neg (by simp [jsStringLt_asymm _ _ h1])]
  · have h1f : jsStringLt y x = false := by simpa using h1
    by_cases h2 : jsStringLt x y = true
    · rw [if_neg h1, if_pos h2]
    · have h2f : jsStringLt x y = false := by simpa using h2
      have heq := jsStringLt_eq_of_both_false _ _ h2f h1f
      rw [if_neg h1, if_neg h2, heq]

theorem mkLocalFinding_norm (a b : PrescribedMedication) (rule : InteractionRule) :
    normFinding (mkLocalFinding a b rule) = normFinding (mkLocalFinding b a rule) := by
  simp [normFinding, mkLocalFinding, normPair_comm]

theorem pairsInOrder_filterMap_perm {α β : Type} (f : α × α → Option β)
    (hf : ∀ a b, f (a, b) = f (b, a)) :
    ∀ {l l2 : List α}, l.Perm l2 →
      ((pairsInOrder l).filterMap f).Perm ((pairsInOrder l2).filterMap f) := by
  intro l l2 h
  induction h with
  | nil => exact List.Perm.refl _
  | cons x h ih =>
    simp only [pairsInOrder, List.filterMap_append]
    refine List.Perm.append ?_ ih
    rw [List.filterMap_map, List.filterMap_map]
    exact h.filterMap _
  | swap x y l =>
    simp only [pairsInOrder, List.map_cons, List.filterMap_append, List.filterMap_cons,
      hf y x]
    have hmid : ∀ A B P : List β, (A ++ (B ++ P)).Perm (B ++ (A ++ P)) := by
      intro A B P
      have h2 : ((A ++ B) ++ P).Perm ((B ++ A) ++ P) :=
        List.Perm.append_right P List.perm_append_comm
      simpa [List.append_assoc] using h2
    cases hfx : f (x, y) with
    | none => simpa [hfx] using hmid _ _ _
    | some b => simpa [hfx] using (hmid _ _ _).cons b
  | trans h1 h2 ih1 ih2 => exact ih1.trans ih2

/-- C8: interaction detection is order-independent — the canonical pair key is
invariant under swapping the two names and under changing their letter case,
and for any two medication lists that are permutations of each other the
detected findings agree up to permutation once each finding's recorded pair
order is normalized (severity, reason and all other fields are kept). -/
theorem claim8_order_independence :
    (∀ a b, toPairKey a b = toPairKey b a)
    ∧ (∀ a b a2 b2, jsToLower a2 = jsToLower a → jsToLower b2 = jsToLower b →
        toPairKey a2 b2 = toPairKey a b)
    ∧ (∀ meds meds2 : List PrescribedMedication, meds.Perm meds2 →
        ((detectInteractions meds).map normFinding).Perm
          ((detectInteractions meds2).map normFinding)) := by
  refine ⟨toPairKey_comm, ?_, ?_⟩
  · intro a b a2 b2 h1 h2
    unfold toPairKey
    rw [h1, h2]
  · intro meds meds2 hperm
    have hmap : ∀ l : List PrescribedMedication,
        (detectInteractions l).map normFinding =
          (pairsInOrder l).filterMap fun ab =>
            (match rules (toPairKey ab.1.name ab.2.name) with
              | none => none
              | some rule => some (mkLocalFinding ab.1 ab.2 rule)).map normFinding := by
      intro l
      rw [detectInteractions, List.map_filterMap]
    rw [hmap, hmap]
    refine pairsInOrder_filterMap_perm _ ?_ hperm
    intro a b
    show (match rules (toPairKey a.name b.name) with
        | none => none
        | some rule => some (mkLocalFinding a b rule)).map normFinding =
      (match rules (toPairKey b.name a.name) with
        | none => none
        | some rule => some (mkLocalFinding b a rule)).map normFinding
    rw [toPairKey_comm a.name b.name]
    cases hcase : rules (toPairKey b.name a.name) with
    | none => rfl
    | some rule => simp [mkLocalFinding_norm a b rule]

/-- Witness for C8: the spec's pair-key example and the two-permutation
detection example for aspirin/warfarin. -/
theorem claim8_witness :
    toPairKey ("Aspirin") ("Warfarin") = toPairKey ("warfarin") ("ASPIRIN")
      ∧ ((detectInteractions [aspirinMed, warfarinMed]).map normFinding).Perm
          ((detectInteractions [warfarinMed, aspirinMed]).map normFinding) :=
  ⟨(claim8_order_independence.2.1 ("ASPIRIN") ("warfarin") ("Aspirin") ("Warfarin") (by decide)
        (by decide)).trans
      (claim8_order_independence.1 ("ASPIRIN") ("warfarin")),
    claim8_order_independence.2.2 _ _ (List.Perm.swap warfarinMed aspirinMed [])⟩
